import Mathlib

/-!
Verification of the WhatsApp-intervention ETL transformation core.

Shallow embedding of `src/etl_pipeline/transform/transform_data.py` and
`src/etl_pipeline/models.py`.  Tables are lists of rows whose cells are
`Option`-typed (pandas `NaN`/`None` is `none`); column presence is tracked by
boolean flags because several code paths branch (or raise `KeyError`) on
whether a column exists.  Timestamps are modelled as `Option Int` (the code
parses them with `pd.to_datetime(..., errors="coerce")`; only their order is
ever used).  Fallible code paths (pandas `KeyError`) are modelled with
`Except String`.  The `sort_values` call inside `get_latest_status` uses the
pandas default (quicksort), which is **not** guaranteed stable; it is
therefore modelled as a parameter: any function producing a permutation of
its input that is sorted by timestamp (`IsTimestampSort`).
-/

deriving instance DecidableEq for Except

namespace WhatsappEtl

/-- One row of the raw messages table.  Only the fields consulted by the
claims are typed; the remaining message columns are carried through the
unified view untouched and never influence any claim's value (their
column-level bookkeeping is handled by the fixed column lists below). -/
structure MsgRow where
  id : Option Int
  uuid : Option String
  content : Option String
  direction : Option String
  inserted_at : Option Int
  deriving DecidableEq, Repr

/-- The messages table: rows plus presence flags for the columns whose
absence changes behaviour (`data_quality_checks` tests `id`/`uuid`/
`inserted_at` presence; `detect_duplicates` raises if `content` is absent;
the unified-view join key is `uuid`). -/
structure MsgTable where
  hasId : Bool
  hasUuid : Bool
  hasInserted : Bool
  hasContent : Bool
  rows : List MsgRow
  deriving DecidableEq, Repr

/-- One row of the raw statuses table (`RawStatus` in `models.py`). -/
structure StatusRow where
  id : Option Int
  status : Option String
  timestamp : Option Int
  uuid : Option String
  message_uuid : Option String
  message_id : Option Int
  number_id : Option Int
  inserted_at : Option Int
  updated_at : Option Int
  deriving DecidableEq, Repr

/-- The statuses table with presence flags for the columns the code
accesses positionally (a missing one raises `KeyError` in pandas). -/
structure StatusTable where
  hasMessageUuid : Bool
  hasStatus : Bool
  hasTimestamp : Bool
  hasUuid : Bool
  hasId : Bool
  rows : List StatusRow
  deriving DecidableEq, Repr

/-! ## Quality report (`models.py`: `QualityCheckResult`, `DataQualityReport`,
`transform_data.py`: `data_quality_checks`) -/

/-- `QualityCheckResult` from `models.py`. -/
structure QualityCheckResult where
  check_name : String
  check_type : String
  value : Int
  description : String
  severity : String
  deriving DecidableEq, Repr

/-- `DataQualityReport` from `models.py` (the fields the claims touch;
`report_generated_at` is wall-clock time and is omitted). -/
structure DataQualityReport where
  total_messages : Int
  total_statuses : Int
  messages_without_status : Int
  invalid_statuses : Int
  future_timestamps : Int
  missing_required_fields : Int
  duplicates_found : Int
  checks : List QualityCheckResult
  deriving DecidableEq, Repr

/-- Number of checks with severity "error" (`get_summary` in `models.py`). -/
def errorCount (checks : List QualityCheckResult) : Nat :=
  checks.countP (fun c => c.severity == ("error"))

/-- Number of checks with severity "warning" (`get_summary` in `models.py`). -/
def warningCount (checks : List QualityCheckResult) : Nat :=
  checks.countP (fun c => c.severity == ("warning"))

/-- The score arithmetic of `get_summary`: `max(0, 100 - e*20 - w*5)`. -/
def scoreFormula (e w : Nat) : Int :=
  max 0 (100 - (e : Int) * 20 - (w : Int) * 5)

/-- `data_quality_score` as computed by `DataQualityReport.get_summary`. -/
def getSummaryScore (checks : List QualityCheckResult) : Int :=
  scoreFormula (errorCount checks) (warningCount checks)

/-- The five recognized status kinds (`STATUS_TYPES` in `models.py`,
`pivot_statuses` / `valid_statuses` in `transform_data.py`). -/
def pivotStatuses : List String :=
  [("sent"), ("delivered"), ("read"), ("failed"), ("deleted")]

/-- A message row missing one of the required fields
(`isnull().any(axis=1)` over `id`, `uuid`, `inserted_at`). -/
def rowMissingRequired (r : MsgRow) : Bool :=
  r.id.isNone || r.uuid.isNone || r.inserted_at.isNone

/-- `missing_required` in `data_quality_checks`: counted only when the
table is non-empty and all three required columns are present, else 0. -/
def missingRequiredFields (t : MsgTable) : Nat :=
  if ¬ t.rows.isEmpty ∧ t.hasId ∧ t.hasUuid ∧ t.hasInserted then
    t.rows.countP rowMissingRequired
  else 0

/-- A status value outside the five kinds (pandas `~isin`; a null status is
not in the list, hence counted as invalid). -/
def statusIsInvalid (r : StatusRow) : Bool :=
  match r.status with
  | some s => ¬ pivotStatuses.contains s
  | none => true

/-- `invalid_statuses` in `data_quality_checks`. -/
def invalidStatuses (t : StatusTable) : Nat :=
  if ¬ t.rows.isEmpty ∧ t.hasStatus then
    t.rows.countP statusIsInvalid
  else 0

/-- `DataTransformer.data_quality_checks`: assembles the four checks and
the report (`duplicates_found` is back-filled later by `transform_all`). -/
def dataQualityChecks (mt : MsgTable) (st : StatusTable) : DataQualityReport :=
  let totalMessages : Int := mt.rows.length
  let totalStatuses : Int := st.rows.length
  let missingRequired : Int := missingRequiredFields mt
  let invalid : Int := invalidStatuses st
  let checks : List QualityCheckResult :=
    [ { check_name := "total_messages", check_type := "count",
        value := totalMessages, description := "Total messages processed",
        severity := "info" },
      { check_name := "total_statuses", check_type := "count",
        value := totalStatuses,
        description := "Total status records processed",
        severity := "info" },
      { check_name := "missing_required_fields", check_type := "count",
        value := missingRequired,
        description := "Records missing required fields",
        severity := if missingRequired > 0 then ("error") else ("info") },
      { check_name := "invalid_statuses", check_type := "count",
        value := invalid,
        description := "Status records with invalid values",
        severity := if invalid > 0 then ("error") else ("info") } ]
  { total_messages := totalMessages
    total_statuses := totalStatuses
    messages_without_status := 0
    invalid_statuses := invalid
    future_timestamps := 0
    missing_required_fields := missingRequired
    duplicates_found := 0
    checks := checks }

/-- Severity of the first check with the given name, if any. -/
def checkSeverity (rep : DataQualityReport) (name : String) : Option String :=
  (rep.checks.find? (fun c => c.check_name == name)).map (fun c => c.severity)

/-! ## Status aggregation (`transform_unified_view`, status side)

`get_latest_status` sorts with `df.sort_values("timestamp")`, i.e. the
pandas default `kind="quicksort"`, which the pandas documentation does not
guarantee to be stable.  The sort is therefore a parameter of the
embedding, constrained only by what every sort guarantees: the output is a
permutation of the input ordered by timestamp (`NaT` last, matching
`na_position="last"`). -/

/-- Timestamp comparison used by `sort_values("timestamp")`: missing
timestamps (`NaT`) sort after every value (`na_position="last"`). -/
def tsLeB : Option Int → Option Int → Bool
  | _, none => true
  | none, some _ => false
  | some a, some b => a ≤ b

/-- The sort relation on status rows, keyed on the timestamp column. -/
def tsRel (a b : StatusRow) : Prop :=
  tsLeB a.timestamp b.timestamp = true

instance : DecidableRel tsRel := fun a b => by
  unfold tsRel; infer_instance

/-- A function is a valid embedding of `sort_values("timestamp")` when it
permutes its input into timestamp order.  Tie order is unconstrained,
exactly as for an unstable sort. -/
def IsTimestampSort (f : List StatusRow → List StatusRow) : Prop :=
  ∀ l : List StatusRow, (f l).Perm l ∧ (f l).Pairwise tsRel

/-- A concrete valid sort: stable insertion sort on the timestamp key. -/
def stdSort (l : List StatusRow) : List StatusRow :=
  List.insertionSort tsRel l

/-- A second concrete valid sort that reverses the relative order of
equal-timestamp rows (stable sort of the reversed list). -/
def revSort (l : List StatusRow) : List StatusRow :=
  List.insertionSort tsRel l.reverse

/-- A status row whose `status` value is one of the five recognized kinds
(the `isin(pivot_statuses)` filter; a null status is not in the list). -/
def validStatusRow (r : StatusRow) : Bool :=
  match r.status with
  | some s => pivotStatuses.contains s
  | none => false

/-- The distinct non-null `message_uuid` values of a row list, in first
occurrence order.  This models the group keys of `groupby("message_uuid")`
(pandas drops null keys; it also sorts the keys, but no claim depends on
the row order of the aggregate, only on its row multiset). -/
def uuidKeys (rows : List StatusRow) : List String :=
  (rows.filterMap (fun r => r.message_uuid)).dedup

/-- One row of the count pivot (`counts_df`): `groupby(["message_uuid",
"status"]).size().unstack(fill_value=0)` with missing kinds added as 0 and
all counts cast to `int64`. -/
structure CountsRow where
  message_uuid : String
  sent : Nat
  delivered : Nat
  read : Nat
  failed : Nat
  deleted : Nat
  deriving DecidableEq, Repr

/-- Number of events of kind `k` for message `u` among `rows`. -/
def countKind (rows : List StatusRow) (u k : String) : Nat :=
  rows.countP (fun r => r.message_uuid == some u && r.status == some k)

/-- `counts_df` as a row list: one row per distinct non-null `message_uuid`
among the rows whose status is a recognized kind. -/
def countsRows (t : StatusTable) : List CountsRow :=
  let filtered := t.rows.filter validStatusRow
  (uuidKeys filtered).map (fun u =>
    { message_uuid := u
      sent := countKind filtered u ("sent")
      delivered := countKind filtered u ("delivered")
      read := countKind filtered u ("read")
      failed := countKind filtered u ("failed")
      deleted := countKind filtered u ("deleted") })

/-- One row of a per-kind latest table produced by `get_latest_status`. -/
structure LatestRow where
  message_uuid : String
  timestamp : Option Int
  status_uuid : Option String
  status_id : Option Int
  deriving DecidableEq, Repr

/-- `GroupBy.last()` semantics: per column, the last non-null value of the
group (pandas `last` skips nulls column-wise). -/
def lastNonNull (f : StatusRow → Option α) (g : List StatusRow) : Option α :=
  (g.filterMap f).getLast?

/-- `get_latest_status(status_type, prefix)`: filter to one kind; empty
result short-circuits to a two-column empty frame; otherwise sort by
timestamp (`sortFn`), group by `message_uuid` and take the last row per
group, projecting timestamp, uuid and id.  Missing columns raise
`KeyError` (`sort_values` and the final column selection). -/
def getLatestStatus (sortFn : List StatusRow → List StatusRow)
    (t : StatusTable) (k : String) : Except String (List LatestRow) :=
  let df := t.rows.filter (fun r => r.status == some k)
  if df.isEmpty then Except.ok []
  else if ¬ t.hasTimestamp then Except.error ("KeyError: timestamp")
  else if ¬ (t.hasUuid && t.hasId) then Except.error ("KeyError: uuid, id")
  else
    let sorted := sortFn df
    Except.ok ((uuidKeys sorted).map (fun u =>
      let g := sorted.filter (fun r => r.message_uuid == some u)
      { message_uuid := u
        timestamp := lastNonNull (fun r => r.timestamp) g
        status_uuid := lastNonNull (fun r => r.uuid) g
        status_id := lastNonNull (fun r => r.id) g }))

/-- One row of `status_wide`: a counts row left-merged with the five
per-kind latest tables.  Each latest table has one row per `message_uuid`
by construction (groupby output), so the left merge is a keyed lookup. -/
structure StatusWideRow where
  counts : CountsRow
  sentL : Option LatestRow
  deliveredL : Option LatestRow
  readL : Option LatestRow
  failedL : Option LatestRow
  deletedL : Option LatestRow
  deriving DecidableEq, Repr

/-- The non-empty-statuses path of `transform_unified_view` building
`status_wide`: counts pivot, five latest tables, left merges.  The
`fillna(0)` on the count columns afterwards is a no-op (counts come from
the left table of every merge and are never null).  Missing `status` or
`message_uuid` columns raise `KeyError` in the counts pivot first. -/
def statusWideRows (sortFn : List StatusRow → List StatusRow)
    (t : StatusTable) : Except String (List StatusWideRow) :=
  if ¬ t.hasStatus then Except.error ("KeyError: status")
  else if ¬ t.hasMessageUuid then Except.error ("KeyError: message_uuid")
  else
    match getLatestStatus sortFn t ("sent"), getLatestStatus sortFn t ("delivered"),
        getLatestStatus sortFn t ("read"), getLatestStatus sortFn t ("failed"),
        getLatestStatus sortFn t ("deleted") with
    | Except.ok sentF, Except.ok deliveredF, Except.ok readF,
        Except.ok failedF, Except.ok deletedF =>
      Except.ok ((countsRows t).map (fun c =>
        { counts := c
          sentL := sentF.find? (fun x => x.message_uuid == c.message_uuid)
          deliveredL := deliveredF.find? (fun x => x.message_uuid == c.message_uuid)
          readL := readF.find? (fun x => x.message_uuid == c.message_uuid)
          failedL := failedF.find? (fun x => x.message_uuid == c.message_uuid)
          deletedL := deletedF.find? (fun x => x.message_uuid == c.message_uuid) }))
    | Except.error e, _, _, _, _ => Except.error e
    | _, Except.error e, _, _, _ => Except.error e
    | _, _, Except.error e, _, _ => Except.error e
    | _, _, _, Except.error e, _ => Except.error e
    | _, _, _, _, Except.error e => Except.error e

/-! ## Column schemas

Claims about "columns" are settled at the level of column-name lists.
The intra-list order produced by pandas (`unstack` sorts the kind columns,
`reset_index` puts the key first, merges append) is abstracted: every
column claim is a membership/superset statement, never an order one. -/

/-- The seven per-kind metadata column names of the canonical wide schema
(the hardcoded lists at lines 66-115 and 245-286 of
`transform_data.py`). -/
def kindMetadataColumns (k : String) : List String :=
  [k ++ "_timestamp", k ++ "_inserted_at", k ++ "_updated_at",
   k ++ "_status_uuid", k ++ "_status_id",
   k ++ "_status_message_id", k ++ "_status_number_id"]

/-- The 40 derived columns of the canonical wide schema: 5 counts plus
5 kinds x 7 metadata columns. -/
def canonicalDerivedColumns : List String :=
  pivotStatuses ++ pivotStatuses.flatMap kindMetadataColumns

/-- The 41-column canonical aggregate schema (`message_uuid` plus the 40
derived columns), used for the empty-statuses aggregate. -/
def canonicalAggregateColumns : List String :=
  ("message_uuid") :: canonicalDerivedColumns

/-- The columns a per-kind latest table contributes on the non-empty path:
three when the kind has at least one event (full projection), otherwise
only the schema-only `{k}_timestamp` column of the empty early return. -/
def latestKindColumns (t : StatusTable) (k : String) : List String :=
  if t.rows.any (fun r => r.status == some k) then
    [k ++ "_timestamp", k ++ "_status_uuid", k ++ "_status_id"]
  else [k ++ "_timestamp"]

/-- The derived columns `status_wide` actually carries on the non-empty
path: the 5 counts plus per-kind latest projections. -/
def joinedDerivedColumns (t : StatusTable) : List String :=
  pivotStatuses ++ pivotStatuses.flatMap (latestKindColumns t)

/-- The columns of the `status_wide` aggregate (the `status_flat` side
artifact): the canonical 41 when the status table is empty, else the
counts plus whatever the latest merges contribute. -/
def aggregateColumns (t : StatusTable) : List String :=
  if t.rows.isEmpty then canonicalAggregateColumns
  else ("message_uuid") :: joinedDerivedColumns t

/-- The fixed 18-column canonical message projection
(`desired_message_columns`); any absent input column is added all-null, so
the normalized message frame always has exactly these columns. -/
def desiredMessageColumns : List String :=
  [("message_id"), ("message_uuid"), ("message_type"),
   ("masked_addressees"), ("masked_author"), ("content"),
   ("author_type"), ("direction"), ("external_id"),
   ("external_timestamp"), ("masked_from_addr"), ("is_deleted"),
   ("rendered_content"), ("source_type"), ("message_inserted_at"),
   ("message_updated_at"), ("msg_last_status_raw"),
   ("msg_last_status_timestamp_raw")]

/-- The full 58-column unified schema the spec calls the fixed superset. -/
def canonicalUnifiedColumns : List String :=
  desiredMessageColumns ++ canonicalDerivedColumns

/-! ## Unified view -/

/-- The join key of a message row: its `uuid` column (renamed
`message_uuid`).  If the input lacks a `uuid` column the normalizer adds
`message_uuid` as all-null, and null keys never match in a pandas merge. -/
def msgJoinUuid (mt : MsgTable) (r : MsgRow) : Option String :=
  if mt.hasUuid then r.uuid else none

/-- The cell values of one status kind in a unified row: the count column
and the seven metadata columns.  `none` is pandas null (NaN/NaT/None). -/
structure KindCells where
  count : Option Nat
  timestamp : Option Int
  inserted_at : Option Int
  updated_at : Option Int
  status_uuid : Option String
  status_id : Option Int
  status_message_id : Option Int
  status_number_id : Option Int
  deriving DecidableEq, Repr

/-- All cells null: what a left join writes for an unmatched row. -/
def noneKindCells : KindCells :=
  { count := none, timestamp := none, inserted_at := none,
    updated_at := none, status_uuid := none, status_id := none,
    status_message_id := none, status_number_id := none }

/-- Count 0, metadata null: the synthesized empty-statuses columns. -/
def zeroKindCells : KindCells :=
  { noneKindCells with count := some 0 }

/-- The 40 derived cells of one unified row, grouped per status kind. -/
structure DerivedCells where
  sent : KindCells
  delivered : KindCells
  read : KindCells
  failed : KindCells
  deleted : KindCells
  deriving DecidableEq, Repr

/-- Empty-statuses path: every count 0, every metadata cell null. -/
def synthDerivedCells : DerivedCells :=
  { sent := zeroKindCells, delivered := zeroKindCells,
    read := zeroKindCells, failed := zeroKindCells,
    deleted := zeroKindCells }

/-- Join path, message row with no aggregate match: the merge writes null
into every status-derived column, counts included (the `fillna(0)` at
lines 186-188 runs on `status_wide` before the merge, not after it). -/
def unmatchedDerivedCells : DerivedCells :=
  { sent := noneKindCells, delivered := noneKindCells,
    read := noneKindCells, failed := noneKindCells,
    deleted := noneKindCells }

/-- The cells one kind receives from a matched `status_wide` row: the
count, and timestamp/uuid/id from the latest projection when that kind had
events for this message.  The `{k}_inserted_at`, `{k}_updated_at`,
`{k}_status_message_id` and `{k}_status_number_id` cells are never
produced on this path (the columns do not exist in the joined frame). -/
def kindCellsOf (cnt : Nat) (l : Option LatestRow) : KindCells :=
  { count := some cnt
    timestamp := l.bind (fun x => x.timestamp)
    status_uuid := l.bind (fun x => x.status_uuid)
    status_id := l.bind (fun x => x.status_id)
    inserted_at := none, updated_at := none,
    status_message_id := none, status_number_id := none }

/-- Derived cells of a unified row matched with `status_wide` row `s`. -/
def matchedDerivedCells (s : StatusWideRow) : DerivedCells :=
  { sent := kindCellsOf s.counts.sent s.sentL
    delivered := kindCellsOf s.counts.delivered s.deliveredL
    read := kindCellsOf s.counts.read s.readL
    failed := kindCellsOf s.counts.failed s.failedL
    deleted := kindCellsOf s.counts.deleted s.deletedL }

/-- One row of the unified view: the message fields plus derived cells. -/
structure UnifiedRow where
  msg : MsgRow
  cells : DerivedCells
  deriving DecidableEq, Repr

/-- The value of `transform_unified_view`: the unified frame (rows and
columns) plus the `status_flat` side artifact saved on the transformer. -/
structure UnifiedResult where
  rows : List UnifiedRow
  columns : List String
  statusFlatRows : List StatusWideRow
  statusFlatColumns : List String
  deriving DecidableEq, Repr

/-- The left merge of one normalized message row against `status_wide`:
the matching aggregate rows (null keys match nothing), or a single
all-null-derived row when there is no match.  `status_wide` carries one
row per `message_uuid` by construction, so in fact at most one row
matches and the join never duplicates message rows. -/
def joinRow (mt : MsgTable) (sw : List StatusWideRow) (m : MsgRow) :
    List UnifiedRow :=
  let hits := sw.filter (fun s => msgJoinUuid mt m == some s.counts.message_uuid)
  if hits.isEmpty then [{ msg := m, cells := unmatchedDerivedCells }]
  else hits.map (fun s => { msg := m, cells := matchedDerivedCells s })

/-- `DataTransformer.transform_unified_view`.  Empty statuses short-cut to
a schema-only empty aggregate; otherwise the aggregate is built (possibly
raising `KeyError`).  A non-empty aggregate is left-joined onto the
normalized messages on `message_uuid`; an empty aggregate (empty statuses,
or no recognized status rows) instead synthesizes the 40 canonical derived
columns with counts 0 and metadata null. -/
def transformUnifiedView (sortFn : List StatusRow → List StatusRow)
    (mt : MsgTable) (st : StatusTable) : Except String UnifiedResult :=
  let swE : Except String (List StatusWideRow) :=
    if st.rows.isEmpty then Except.ok [] else statusWideRows sortFn st
  match swE with
  | Except.error e => Except.error e
  | Except.ok sw =>
    if ¬ sw.isEmpty then
      Except.ok
        { rows := mt.rows.flatMap (joinRow mt sw)
          columns := desiredMessageColumns ++ joinedDerivedColumns st
          statusFlatRows := sw
          statusFlatColumns := aggregateColumns st }
    else
      Except.ok
        { rows := mt.rows.map (fun m => { msg := m, cells := synthDerivedCells })
          columns := canonicalUnifiedColumns
          statusFlatRows := sw
          statusFlatColumns := aggregateColumns st }

/-- Whether an `Except` value is a success. -/
def isOkB : Except String α → Bool
  | Except.ok _ => true
  | Except.error _ => false

/-- Rows of a unified-view result (empty on error). -/
def tvRows (e : Except String UnifiedResult) : List UnifiedRow :=
  match e with
  | Except.ok u => u.rows
  | Except.error _ => []

/-- Columns of a unified-view result (empty on error). -/
def tvColumns (e : Except String UnifiedResult) : List String :=
  match e with
  | Except.ok u => u.columns
  | Except.error _ => []

/-- Aggregate side artifact rows of a unified-view result. -/
def tvStatusFlat (e : Except String UnifiedResult) : List StatusWideRow :=
  match e with
  | Except.ok u => u.statusFlatRows
  | Except.error _ => []

/-- Aggregate side artifact columns of a unified-view result. -/
def tvStatusFlatColumns (e : Except String UnifiedResult) : List String :=
  match e with
  | Except.ok u => u.statusFlatColumns
  | Except.error _ => []

/-! ## Duplicate detection (`detect_duplicates`, `DuplicateRecord`) -/

/-- `DuplicateRecord` from `models.py`.  `inserted_at` is kept as a string
(the model stringifies timestamps). -/
structure DuplicateRecord where
  id : Int
  content : Option String
  inserted_at : String
  uuid : String
  direction : String
  duplicate_group : Option String
  deriving DecidableEq, Repr

/-- Python `str.strip()`: drop whitespace from both ends.  Implemented
over the character list so that the kernel can evaluate it on concrete
inputs (`String.trim` reduces through `Substring` well-founded recursion,
which the kernel cannot unfold). -/
def pyStrip (s : String) : String :=
  ⟨((s.data.dropWhile Char.isWhitespace).reverse.dropWhile Char.isWhitespace).reverse⟩

/-- Python `value.strip() if value.strip() else None`. -/
def strippedOrNone (s : String) : Option String :=
  if pyStrip s = "" then none else some (pyStrip s)

/-- Placeholder for `str(datetime.now())`, the default the code fabricates
for a null `inserted_at`.  Wall-clock time is not embeddable; no claim
evaluates a record built from a null `inserted_at`. -/
def datetimeNowString : String :=
  "1970-01-01 00:00:00"

/-- `str(value)` for the `inserted_at` cell. -/
def insertedAtString : Option Int → String
  | some t => toString t
  | none => datetimeNowString

/-- `DuplicateRecord.from_pandas_row` followed by pydantic validation.
Null defaults: id 0, uuid "unknown-uuid", direction "unknown".  Strings
are stripped, and a blank string becomes `None`.  Construction fails
(`none`, caught and dropped by `detect_duplicates`) when the resulting
uuid or direction is `None` (both are required `str` fields) or when the
direction validator rejects a value outside inbound/outbound; the literal
"unknown" default always fails that validator. -/
def mkDuplicateRecord (r : MsgRow) : Option DuplicateRecord :=
  let uuidVal : Option String :=
    match r.uuid with
    | none => some ("unknown-uuid")
    | some s => strippedOrNone s
  let directionVal : Option String :=
    match r.direction with
    | none => some ("unknown")
    | some s => strippedOrNone s
  match uuidVal, directionVal with
  | some u, some d =>
    if d = "inbound" ∨ d = "outbound" then
      some { id := r.id.getD 0
             content := r.content.bind strippedOrNone
             inserted_at := insertedAtString r.inserted_at
             uuid := u
             direction := d
             duplicate_group := none }
    else none
  | _, _ => none

/-- `DataTransformer.detect_duplicates`: group the rows by exact `content`
equality (null contents are dropped by `groupby`), and for every group of
size > 1 whose key is truthy and non-blank after stripping, emit one
record per member, dropping members whose record fails to construct.
`groupby("content")` raises `KeyError` when the column is absent (and the
table is non-empty); group iteration order is abstracted (pandas sorts the
keys; the claims are emission-multiset statements), here first-occurrence
order of the distinct contents. -/
def detectDuplicates (t : MsgTable) : Except String (List DuplicateRecord) :=
  if t.rows.isEmpty then Except.ok []
  else if ¬ t.hasContent then Except.error ("KeyError: content")
  else Except.ok
    (((t.rows.filterMap (fun r => r.content)).dedup).flatMap (fun c =>
      let group := t.rows.filter (fun r => r.content == some c)
      if 1 < group.length ∧ c ≠ "" ∧ pyStrip c ≠ "" then
        group.filterMap mkDuplicateRecord
      else []))

/-- Whether a row qualifies for emission under the grouping rule: its
content is non-null, truthy and non-blank, and at least one other row of
the table carries exactly the same content. -/
def qualifiesDuplicate (t : MsgTable) (r : MsgRow) : Bool :=
  match r.content with
  | none => false
  | some c =>
    1 < t.rows.countP (fun x => x.content == some c) ∧ c ≠ "" ∧ pyStrip c ≠ ""

/-- Records of a duplicate-detection result (empty on error). -/
def ddRecords (e : Except String (List DuplicateRecord)) : List DuplicateRecord :=
  match e with
  | Except.ok l => l
  | Except.error _ => []

/-! ## Transformer state (`DataTransformer` object, claim C9)

The constructor copies both input frames (`messages_df.copy()`), so the
caller's frames and the transformer's are distinct values; every in-place
pandas mutation in the pipeline targets a transformer field, modelled as a
functional update of this state. -/

/-- The mutable state of a `DataTransformer` instance. -/
structure TransformerState where
  messages : MsgTable
  statuses : StatusTable
  status_flat : Option (List StatusWideRow × List String)
  deriving DecidableEq, Repr

/-- `DataTransformer.__init__`: copies of the caller's frames, no
`status_flat` attribute yet. -/
def mkTransformer (m : MsgTable) (s : StatusTable) : TransformerState :=
  { messages := m, statuses := s, status_flat := none }

/-- `DataTransformer.clean_data`: drop message rows with null `id` or
`inserted_at` (when an `id` column exists), drop status rows with a null
in any of the three key columns (when all exist); the date parsing is the
identity here because timestamps are already modelled post-parse. -/
def cleanDataS (s : TransformerState) : TransformerState :=
  let msgs := s.messages
  let msgs :=
    if ¬ msgs.rows.isEmpty ∧ msgs.hasId then
      { msgs with
        rows := msgs.rows.filter (fun r => ¬ (r.id.isNone || r.inserted_at.isNone)) }
    else msgs
  let sts := s.statuses
  let sts :=
    if ¬ sts.rows.isEmpty ∧ (sts.hasMessageUuid ∧ sts.hasStatus ∧ sts.hasTimestamp) then
      { sts with
        rows := sts.rows.filter
          (fun r => ¬ (r.message_uuid.isNone || r.status.isNone || r.timestamp.isNone)) }
    else sts
  { s with messages := msgs, statuses := sts }

/-- `transform_unified_view` as a state transition: computes the unified
frame from the transformer's tables and stores the `status_flat` artifact
on the instance; the `messages_df`/`statuses_df` fields are only read
(all work happens on `.copy()` frames). -/
def transformUnifiedViewS (sortFn : List StatusRow → List StatusRow)
    (s : TransformerState) : Except String (TransformerState × UnifiedResult) :=
  match transformUnifiedView sortFn s.messages s.statuses with
  | Except.error e => Except.error e
  | Except.ok u =>
    Except.ok ({ s with status_flat := some (u.statusFlatRows, u.statusFlatColumns) }, u)

/-- Messages table of the post-state (none on error). -/
def tvsMessages (e : Except String (TransformerState × UnifiedResult)) :
    Option MsgTable :=
  match e with
  | Except.ok p => some p.1.messages
  | Except.error _ => none

/-- Statuses table of the post-state (none on error). -/
def tvsStatuses (e : Except String (TransformerState × UnifiedResult)) :
    Option StatusTable :=
  match e with
  | Except.ok p => some p.1.statuses
  | Except.error _ => none

/-- `status_flat` of the post-state (none on error). -/
def tvsStatusFlat (e : Except String (TransformerState × UnifiedResult)) :
    Option (Option (List StatusWideRow × List String)) :=
  match e with
  | Except.ok p => some p.1.status_flat
  | Except.error _ => none

/-- Whether the state transition succeeded. -/
def tvsIsOk (e : Except String (TransformerState × UnifiedResult)) : Bool :=
  match e with
  | Except.ok _ => true
  | Except.error _ => false

/-! # Theorems -/

/-! ## Sort-order facts -/

theorem tsLeB_total (a b : Option Int) : tsLeB a b = true ∨ tsLeB b a = true := by
  cases a <;> cases b <;> simp [tsLeB] <;> omega

theorem tsLeB_trans {a b c : Option Int} :
    tsLeB a b = true → tsLeB b c = true → tsLeB a c = true := by
  cases a <;> cases b <;> cases c <;> simp [tsLeB] <;> omega

instance : IsTotal StatusRow tsRel :=
  ⟨fun a b => tsLeB_total a.timestamp b.timestamp⟩

instance : IsTrans StatusRow tsRel :=
  ⟨fun _ _ _ => tsLeB_trans⟩

/-- The stable insertion sort on timestamps is a valid `sort_values`. -/
theorem stdSort_isTimestampSort : IsTimestampSort stdSort := fun l =>
  ⟨List.perm_insertionSort tsRel l, List.sorted_insertionSort tsRel l⟩

/-- The tie-reversing sort is also a valid `sort_values`: it permutes its
input and orders it by timestamp, differing from the stable sort only in
the relative order of equal timestamps. -/
theorem revSort_isTimestampSort : IsTimestampSort revSort := fun l =>
  ⟨(List.perm_insertionSort tsRel l.reverse).trans l.reverse_perm,
   List.sorted_insertionSort tsRel l.reverse⟩

/-- C7: for every report, the summary score equals
`max(0, 100 - 20*error_count - 5*warning_count)` where the counts are the
numbers of checks with severity "error" / "warning"; the score lies in
`[0, 100]` and the score formula is monotonically non-increasing in both
the error count and the warning count. -/
theorem c7_quality_score_formula_clamped_monotone
    (cs : List QualityCheckResult) (e1 e2 w1 w2 : Nat) :
    getSummaryScore cs =
        max 0 (100 - (errorCount cs : Int) * 20 - (warningCount cs : Int) * 5)
    ∧ 0 ≤ getSummaryScore cs
    ∧ getSummaryScore cs ≤ 100
    ∧ (e1 ≤ e2 → scoreFormula e2 w1 ≤ scoreFormula e1 w1)
    ∧ (w1 ≤ w2 → scoreFormula e1 w2 ≤ scoreFormula e1 w1)
    ∧ getSummaryScore cs = scoreFormula (errorCount cs) (warningCount cs) := by
  refine ⟨rfl, le_max_left 0 _, ?_, ?_, ?_, rfl⟩
  · apply max_le <;> omega
  · intro h
    apply max_le_max le_rfl
    omega
  · intro h
    apply max_le_max le_rfl
    omega

/-- Witness for C7 at concrete inputs: one more error (2 vs 1) and more
warnings (3 vs 1) can only lower the score, and the empty report's score
is non-negative. -/
theorem c7_quality_score_witness :
    scoreFormula 2 0 ≤ scoreFormula 1 0
    ∧ scoreFormula 0 3 ≤ scoreFormula 0 1
    ∧ 0 ≤ getSummaryScore [] :=
  ⟨(c7_quality_score_formula_clamped_monotone [] 1 2 0 0).2.2.2.1 (by decide),
   (c7_quality_score_formula_clamped_monotone [] 0 0 1 3).2.2.2.2.1 (by decide),
   (c7_quality_score_formula_clamped_monotone [] 0 0 0 0).2.1⟩

/-- C8: the `missing_required_fields` value of the quality report counts
the message rows with a null in any of id/uuid/inserted_at when all three
columns are present, is 0 when they are not all present (in particular
when they are absent entirely), and the corresponding check's severity is
"error" exactly when the value is positive. -/
theorem c8_missing_required_fields_count_and_severity
    (mt : MsgTable) (st : StatusTable) :
    (dataQualityChecks mt st).missing_required_fields =
      (if mt.hasId && mt.hasUuid && mt.hasInserted then
        (mt.rows.countP rowMissingRequired : Int) else 0)
    ∧ checkSeverity (dataQualityChecks mt st) ("missing_required_fields") =
        some (if 0 < (dataQualityChecks mt st).missing_required_fields
              then ("error") else ("info")) := by
  constructor
  · show ((missingRequiredFields mt : Nat) : Int) = _
    unfold missingRequiredFields
    rcases mt with ⟨hid, huu, hins, hc, rows⟩
    cases hid <;> cases huu <;> cases hins <;> cases rows <;> simp
  · show checkSeverity _ _ = _
    unfold checkSeverity dataQualityChecks
    simp only [List.find?]
    norm_num
    split <;> simp_all

/-- C10: every quality report has exactly 4 checks, each with severity
"info" or "error" only; hence the summary's warning count is 0 and the
data-quality score is one of 60, 80, 100. -/
theorem c10_four_checks_severities_and_score (mt : MsgTable) (st : StatusTable) :
    (dataQualityChecks mt st).checks.length = 4
    ∧ ((dataQualityChecks mt st).checks.all
        (fun c => c.severity == ("info") || c.severity == ("error"))) = true
    ∧ warningCount (dataQualityChecks mt st).checks = 0
    ∧ (getSummaryScore (dataQualityChecks mt st).checks = 100
       ∨ getSummaryScore (dataQualityChecks mt st).checks = 80
       ∨ getSummaryScore (dataQualityChecks mt st).checks = 60) := by
  unfold dataQualityChecks
  simp only [getSummaryScore, warningCount, errorCount, scoreFormula]
  split <;> split <;> simp [List.countP, List.countP.go]

/-- C9: `transform_unified_view` as a state transition does not change the
transformer's message or status tables; the only state it writes is the
`status_flat` side artifact, which receives exactly the aggregate built
from those tables. -/
theorem c9_transform_unified_view_frame
    (f : List StatusRow → List StatusRow) (s : TransformerState) :
    tvsIsOk (transformUnifiedViewS f s) = true →
    tvsMessages (transformUnifiedViewS f s) = some s.messages
    ∧ tvsStatuses (transformUnifiedViewS f s) = some s.statuses
    ∧ tvsStatusFlat (transformUnifiedViewS f s) =
        some (some (tvStatusFlat (transformUnifiedView f s.messages s.statuses),
                    tvStatusFlatColumns (transformUnifiedView f s.messages s.statuses))) := by
  unfold transformUnifiedViewS tvsIsOk tvsMessages tvsStatuses tvsStatusFlat
    tvStatusFlat tvStatusFlatColumns
  cases transformUnifiedView f s.messages s.statuses <;> simp

/-! ## Aggregate and join shape lemmas -/

/-- A successful aggregate is the counts pivot decorated with lookups:
projecting the counts back out gives exactly `countsRows`. -/
theorem statusWideRows_counts (f : List StatusRow → List StatusRow)
    (t : StatusTable) (sw : List StatusWideRow)
    (h : statusWideRows f t = Except.ok sw) :
    sw.map (fun s => s.counts) = countsRows t := by
  unfold statusWideRows at h
  split at h
  · exact absurd h (by simp)
  split at h
  · exact absurd h (by simp)
  split at h
  case _ =>
    injection h with h2
    subst h2
    rw [List.map_map]
    exact List.map_id _
  all_goals exact absurd h (by simp)

/-- The aggregate key list is the distinct non-null uuid list of the
recognized-kind rows. -/
theorem statusWideRows_keys (f : List StatusRow → List StatusRow)
    (t : StatusTable) (sw : List StatusWideRow)
    (h : statusWideRows f t = Except.ok sw) :
    sw.map (fun s => s.counts.message_uuid) =
      uuidKeys (t.rows.filter validStatusRow) := by
  have hc := statusWideRows_counts f t sw h
  have h1 : sw.map (fun s => s.counts.message_uuid) =
      (countsRows t).map (fun c => c.message_uuid) := by
    rw [← hc, List.map_map]
    rfl
  rw [h1]
  simp only [countsRows, List.map_map]
  exact List.map_id _

/-- The aggregate has pairwise-distinct `message_uuid` keys. -/
theorem statusWideRows_keys_nodup (f : List StatusRow → List StatusRow)
    (t : StatusTable) (sw : List StatusWideRow)
    (h : statusWideRows f t = Except.ok sw) :
    (sw.map (fun s => s.counts.message_uuid)).Nodup := by
  rw [statusWideRows_keys f t sw h]
  exact List.nodup_dedup _

/-- At most one aggregate row matches a given message row when the
aggregate keys are pairwise distinct. -/
theorem hits_length_le_one (mt : MsgTable) (m : MsgRow) :
    ∀ sw : List StatusWideRow,
      (sw.map (fun s => s.counts.message_uuid)).Nodup →
      (sw.filter (fun s => msgJoinUuid mt m == some s.counts.message_uuid)).length ≤ 1 := by
  intro sw
  induction sw with
  | nil => simp
  | cons a t ih =>
    intro h
    rw [List.map_cons, List.nodup_cons] at h
    rw [List.filter_cons]
    by_cases hk : (msgJoinUuid mt m == some a.counts.message_uuid) = true
    · have hnil : t.filter (fun s => msgJoinUuid mt m == some s.counts.message_uuid) = [] := by
        rw [List.filter_eq_nil_iff]
        intro x hx hxk
        apply h.1
        have hax : a.counts.message_uuid = x.counts.message_uuid := by
          have h1 : msgJoinUuid mt m = some a.counts.message_uuid := eq_of_beq hk
          have h2 : msgJoinUuid mt m = some x.counts.message_uuid := eq_of_beq hxk
          rw [h1] at h2
          exact Option.some_injective _ h2
        rw [hax]
        exact List.mem_map_of_mem (fun s => s.counts.message_uuid) hx
      simp [hk, hnil]
    · simp only [hk, if_false, Bool.false_eq_true, ite_false]
      exact ih h.2

/-- Each message row contributes exactly one unified row to the join when
the aggregate keys are pairwise distinct. -/
theorem joinRow_length_eq_one (mt : MsgTable) (sw : List StatusWideRow)
    (m : MsgRow) (h : (sw.map (fun s => s.counts.message_uuid)).Nodup) :
    (joinRow mt sw m).length = 1 := by
  unfold joinRow
  by_cases he : (sw.filter (fun s => msgJoinUuid mt m == some s.counts.message_uuid)).isEmpty = true
  · simp [he]
  · have h1 := hits_length_le_one mt m sw h
    have h3 : sw.filter (fun s => msgJoinUuid mt m == some s.counts.message_uuid) ≠ [] := by
      intro h0
      apply he
      rw [h0]
      rfl
    have h2 : (sw.filter (fun s => msgJoinUuid mt m == some s.counts.message_uuid)).length ≠ 0 := by
      intro h0
      exact h3 (List.length_eq_zero.mp h0)
    rw [if_neg he, List.length_map]
    omega

/-- Branch equation: empty status table. -/
theorem transformUnifiedView_empty (f : List StatusRow → List StatusRow)
    (mt : MsgTable) (st : StatusTable) (h : st.rows = []) :
    transformUnifiedView f mt st = Except.ok
      { rows := mt.rows.map (fun m => { msg := m, cells := synthDerivedCells })
        columns := canonicalUnifiedColumns
        statusFlatRows := []
        statusFlatColumns := aggregateColumns st } := by
  unfold transformUnifiedView
  simp [h]

/-- Branch equation: aggregate construction fails. -/
theorem transformUnifiedView_err (f : List StatusRow → List StatusRow)
    (mt : MsgTable) (st : StatusTable) (e : String) (h : st.rows ≠ [])
    (hsw : statusWideRows f st = Except.error e) :
    transformUnifiedView f mt st = Except.error e := by
  have h1 : st.rows.isEmpty = false := by
    cases hr : st.rows
    · exact absurd hr h
    · rfl
  unfold transformUnifiedView
  simp [h1, hsw]

/-- Branch equation: non-empty statuses but empty aggregate (no
recognized status rows with a non-null uuid). -/
theorem transformUnifiedView_agg_empty (f : List StatusRow → List StatusRow)
    (mt : MsgTable) (st : StatusTable) (h : st.rows ≠ [])
    (hsw : statusWideRows f st = Except.ok []) :
    transformUnifiedView f mt st = Except.ok
      { rows := mt.rows.map (fun m => { msg := m, cells := synthDerivedCells })
        columns := canonicalUnifiedColumns
        statusFlatRows := []
        statusFlatColumns := aggregateColumns st } := by
  have h1 : st.rows.isEmpty = false := by
    cases hr : st.rows
    · exact absurd hr h
    · rfl
  unfold transformUnifiedView
  simp [h1, hsw]

/-- Branch equation: the left-join path (non-empty aggregate). -/
theorem transformUnifiedView_join (f : List StatusRow → List StatusRow)
    (mt : MsgTable) (st : StatusTable) (sw : List StatusWideRow)
    (h : st.rows ≠ []) (hsw : statusWideRows f st = Except.ok sw)
    (hne : sw ≠ []) :
    transformUnifiedView f mt st = Except.ok
      { rows := mt.rows.flatMap (joinRow mt sw)
        columns := desiredMessageColumns ++ joinedDerivedColumns st
        statusFlatRows := sw
        statusFlatColumns := aggregateColumns st } := by
  have h1 : st.rows.isEmpty = false := by
    cases hr : st.rows
    · exact absurd hr h
    · rfl
  have h2 : sw.isEmpty = false := by
    cases hr : sw
    · exact absurd hr hne
    · rfl
  unfold transformUnifiedView
  simp [h1, hsw, h2]

/-- Length of a `flatMap` whose function yields singletons. -/
theorem length_flatMap_of_one {α β : Type} (g : α → List β) :
    ∀ l : List α, (∀ m ∈ l, (g m).length = 1) → (l.flatMap g).length = l.length := by
  intro l h
  induction l with
  | nil => rfl
  | cons a t ih =>
    rw [List.flatMap_cons, List.length_append,
      h a (List.mem_cons_self a t),
      ih (fun m hm => h m (List.mem_cons_of_mem a hm)), List.length_cons]
    omega

/-- C1 counterexample: with a non-empty status table (one recognized
`sent` event) the unified view succeeds but does *not* carry the full
fixed superset of columns: `sent_inserted_at` (like the other per-kind
`inserted_at`/`updated_at`/`status_message_id`/`status_number_id`
columns) is part of the canonical 58-column schema yet absent from the
joined output, whose latest projections only contribute
timestamp/uuid/id. -/
theorem c1_counterexample_join_lacks_superset :
    isOkB (transformUnifiedView stdSort
      ⟨true, true, true, true, [⟨some 1, some ("a"), some ("hi"), some ("inbound"), some 0⟩]⟩
      ⟨true, true, true, true, true,
        [⟨some 10, some ("sent"), some 5, some ("su"), some ("a"), none, none, some 5, some 5⟩]⟩)
      = true
    ∧ ("sent_inserted_at") ∈ canonicalUnifiedColumns
    ∧ ("sent_inserted_at") ∉ tvColumns (transformUnifiedView stdSort
      ⟨true, true, true, true, [⟨some 1, some ("a"), some ("hi"), some ("inbound"), some 0⟩]⟩
      ⟨true, true, true, true, true,
        [⟨some 10, some ("sent"), some 5, some ("su"), some ("a"), none, none, some 5, some 5⟩]⟩) := by
  refine ⟨by decide, by decide, by decide⟩

/-- C1 (amended): the unified view always preserves the message row count
(the aggregate's `message_uuid` keys are pairwise distinct, so the left
join duplicates nothing); the full fixed 58-column superset, with count
cells 0 and all metadata cells null, is guaranteed on the empty-statuses
path.  (On the join path the output carries only the counts and the
per-kind timestamp/uuid/id projections, see the counterexample.) -/
theorem c1_row_count_preserved_and_empty_schema
    (f : List StatusRow → List StatusRow) (mt : MsgTable) (st : StatusTable)
    (hok : isOkB (transformUnifiedView f mt st) = true) :
    (tvRows (transformUnifiedView f mt st)).length = mt.rows.length
    ∧ (st.rows = [] →
        tvColumns (transformUnifiedView f mt st) = canonicalUnifiedColumns
        ∧ ∀ r ∈ tvRows (transformUnifiedView f mt st),
            r.cells = synthDerivedCells) := by
  by_cases h0 : st.rows = []
  · rw [transformUnifiedView_empty f mt st h0]
    refine ⟨by simp [tvRows], fun _ => ⟨rfl, ?_⟩⟩
    intro r hr
    simp only [tvRows, List.mem_map] at hr
    obtain ⟨m, _, hr2⟩ := hr
    rw [← hr2]
  · rcases hsw : statusWideRows f st with e | sw
    · rw [transformUnifiedView_err f mt st e h0 hsw] at hok
      exact absurd hok (by simp [isOkB])
    · by_cases hne : sw = []
      · subst hne
        rw [transformUnifiedView_agg_empty f mt st h0 hsw]
        exact ⟨by simp [tvRows], fun h1 => absurd h1 h0⟩
      · rw [transformUnifiedView_join f mt st sw h0 hsw hne]
        refine ⟨?_, fun h1 => absurd h1 h0⟩
        simp only [tvRows]
        exact length_flatMap_of_one (joinRow mt sw) mt.rows
          (fun m _ => joinRow_length_eq_one mt sw m
            (statusWideRows_keys_nodup f st sw hsw))

/-- Witness for C1 at a concrete input: one message row, empty statuses;
the unified view succeeds, keeps the single row, and carries the full
canonical schema. -/
theorem c1_row_count_preserved_witness :
    (tvRows (transformUnifiedView stdSort
        ⟨true, true, true, true, [⟨some 7, some ("w"), none, some ("inbound"), some 3⟩]⟩
        ⟨true, true, true, true, true, []⟩)).length = 1
    ∧ tvColumns (transformUnifiedView stdSort
        ⟨true, true, true, true, [⟨some 7, some ("w"), none, some ("inbound"), some 3⟩]⟩
        ⟨true, true, true, true, true, []⟩) = canonicalUnifiedColumns := by
  have h := c1_row_count_preserved_and_empty_schema stdSort
    ⟨true, true, true, true, [⟨some 7, some ("w"), none, some ("inbound"), some 3⟩]⟩
    ⟨true, true, true, true, true, []⟩ (by decide)
  exact ⟨h.1, (h.2 rfl).1⟩

/-- C2 counterexample: with a non-empty aggregate (a `sent` event for
uuid "b"), the message row with uuid "a" matches nothing and its count
cells come out *null*, not 0: the `fillna(0)` runs on `status_wide`
before the merge, so nothing zero-fills the join's unmatched rows. -/
theorem c2_counterexample_unmatched_counts_are_null :
    isOkB (transformUnifiedView stdSort
      ⟨true, true, true, true, [⟨some 1, some ("a"), some ("hi"), some ("inbound"), some 0⟩]⟩
      ⟨true, true, true, true, true,
        [⟨some 10, some ("sent"), some 5, some ("su"), some ("b"), none, none, some 5, some 5⟩]⟩)
      = true
    ∧ tvStatusFlat (transformUnifiedView stdSort
      ⟨true, true, true, true, [⟨some 1, some ("a"), some ("hi"), some ("inbound"), some 0⟩]⟩
      ⟨true, true, true, true, true,
        [⟨some 10, some ("sent"), some 5, some ("su"), some ("b"), none, none, some 5, some 5⟩]⟩) ≠ []
    ∧ (tvRows (transformUnifiedView stdSort
      ⟨true, true, true, true, [⟨some 1, some ("a"), some ("hi"), some ("inbound"), some 0⟩]⟩
      ⟨true, true, true, true, true,
        [⟨some 10, some ("sent"), some 5, some ("su"), some ("b"), none, none, some 5, some 5⟩]⟩)).map
        (fun r => r.cells.sent.count) = [none] := by
  refine ⟨by decide, by decide, by decide⟩

/-- C2 (amended): on the join path (non-empty aggregate), a message row
matching no aggregate row gets *all* its status-derived cells set to
null — the metadata columns as the claim says, but also the five count
columns (null, not 0). -/
theorem c2_unmatched_message_rows_all_null
    (f : List StatusRow → List StatusRow) (mt : MsgTable) (st : StatusTable)
    (hok : isOkB (transformUnifiedView f mt st) = true)
    (hne : tvStatusFlat (transformUnifiedView f mt st) ≠ []) :
    ∀ r ∈ tvRows (transformUnifiedView f mt st),
      ((tvStatusFlat (transformUnifiedView f mt st)).all
        (fun s => !(msgJoinUuid mt r.msg == some s.counts.message_uuid))) = true →
      r.cells = unmatchedDerivedCells := by
  by_cases h0 : st.rows = []
  · rw [transformUnifiedView_empty f mt st h0] at hne
    exact absurd rfl hne
  · rcases hsw : statusWideRows f st with e | sw
    · rw [transformUnifiedView_err f mt st e h0 hsw] at hok
      exact absurd hok (by simp [isOkB])
    · by_cases hswne : sw = []
      · subst hswne
        rw [transformUnifiedView_agg_empty f mt st h0 hsw] at hne
        exact absurd rfl hne
      · rw [transformUnifiedView_join f mt st sw h0 hsw hswne]
        intro r hr hall
        simp only [tvRows] at hr
        rw [List.mem_flatMap] at hr
        obtain ⟨m, _, hrj⟩ := hr
        unfold joinRow at hrj
        by_cases hh : (sw.filter
            (fun s => msgJoinUuid mt m == some s.counts.message_uuid)).isEmpty = true
        · rw [if_pos hh] at hrj
          rw [List.mem_singleton] at hrj
          rw [hrj]
        · rw [if_neg hh] at hrj
          rw [List.mem_map] at hrj
          obtain ⟨s, hs, hr2⟩ := hrj
          rw [List.mem_filter] at hs
          exfalso
          have hall2 := List.all_eq_true.mp hall s hs.1
          rw [← hr2] at hall2
          simp [hs.2] at hall2

/-- Witness for C2 at a concrete input: message "a" against an aggregate
keyed "b" only; the single unified row's derived cells are all null. -/
theorem c2_unmatched_message_rows_all_null_witness :
    (UnifiedRow.cells
      { msg := ⟨some 1, some ("a"), some ("hi"), some ("inbound"), some 0⟩,
        cells := unmatchedDerivedCells }) = unmatchedDerivedCells :=
  c2_unmatched_message_rows_all_null stdSort
    ⟨true, true, true, true, [⟨some 1, some ("a"), some ("hi"), some ("inbound"), some 0⟩]⟩
    ⟨true, true, true, true, true,
      [⟨some 10, some ("sent"), some 5, some ("su"), some ("b"), none, none, some 5, some 5⟩]⟩
    (by decide) (by decide)
    { msg := ⟨some 1, some ("a"), some ("hi"), some ("inbound"), some 0⟩,
      cells := unmatchedDerivedCells }
    (by decide) (by decide)

/-! ## Grouping lemmas for duplicate detection -/

/-- A sum of mapped values over a duplicate-free list with a single
potentially non-zero position. -/
theorem sum_map_eq_of_single {β : Type} [DecidableEq β] (F : β → Nat) (b : β) :
    ∀ l : List β, l.Nodup → b ∈ l → (∀ c ∈ l, c ≠ b → F c = 0) →
      (l.map F).sum = F b := by
  intro l
  induction l with
  | nil =>
    intro _ hb
    exact absurd hb (List.not_mem_nil b)
  | cons a t ih =>
    intro hnd hb h0
    rw [List.map_cons, List.sum_cons]
    rcases List.mem_cons.mp hb with hab | hbt
    · have hsum : (t.map F).sum = 0 := by
        apply List.sum_eq_zero
        intro x hx
        obtain ⟨c, hc, hfc⟩ := List.mem_map.mp hx
        rw [← hfc]
        rcases eq_or_ne c a with hce | hcne
        · exact absurd (hce ▸ hc) (List.nodup_cons.mp hnd).1
        · exact h0 c (List.mem_cons_of_mem a hc) (by rw [hab]; exact hcne)
      rw [hsum, ← hab]
      omega
    · have ha0 : F a = 0 :=
        h0 a (List.mem_cons_self a t)
          (fun hab => (List.nodup_cons.mp hnd).1 (hab ▸ hbt))
      rw [ha0, ih (List.nodup_cons.mp hnd).2 hbt
        (fun c hc hcb => h0 c (List.mem_cons_of_mem a hc) hcb)]
      omega

/-- `groupby("content")` enumeration: concatenating the per-content groups
(each guarded by a predicate of the group key alone) is a permutation of
filtering the rows by that predicate applied to their own key.  This is
what makes `detect_duplicates` a per-row emission despite iterating
group-wise. -/
theorem flatMap_groups_perm (rows : List MsgRow) (q : String → Prop)
    [DecidablePred q] :
    ((rows.filterMap (fun r => r.content)).dedup.flatMap (fun c =>
        if q c then rows.filter (fun r => r.content == some c) else [])).Perm
      (rows.filter (fun r =>
          match r.content with
          | some c => decide (q c)
          | none => false)) := by
  rw [List.perm_iff_count]
  intro x
  rw [List.count_flatMap]
  cases hx : x.content with
  | none =>
    have hR : List.count x (rows.filter (fun r =>
        match r.content with
        | some c => decide (q c)
        | none => false)) = 0 := by
      rw [List.count_eq_zero]
      intro hmem
      have h2 := (List.mem_filter.mp hmem).2
      rw [hx] at h2
      exact absurd h2 (by simp)
    rw [hR]
    apply List.sum_eq_zero
    intro n hn
    obtain ⟨c, hc, hfc⟩ := List.mem_map.mp hn
    rw [← hfc]
    simp only [Function.comp]
    split
    · rw [List.count_eq_zero]
      intro hmem
      have h2 := (List.mem_filter.mp hmem).2
      rw [hx] at h2
      exact absurd h2 (by simp)
    · rfl
  | some cx =>
    by_cases hq : q cx
    · have hpx : (match x.content with
          | some c => decide (q c)
          | none => false) = true := by
        rw [hx]
        simpa using hq
      rw [@List.count_filter _ _ _ (fun r =>
        match r.content with
        | some c => decide (q c)
        | none => false) x rows hpx]
      by_cases hxr : x ∈ rows
      · have hcx : cx ∈ (rows.filterMap (fun r => r.content)).dedup := by
          rw [List.mem_dedup, List.mem_filterMap]
          exact ⟨x, hxr, hx⟩
        have hside : ∀ c ∈ (rows.filterMap (fun r => r.content)).dedup, c ≠ cx →
            (List.count x ∘ fun c =>
              if q c then rows.filter (fun r => r.content == some c) else []) c = 0 := by
          intro c _ hcne
          simp only [Function.comp]
          split
          · rw [List.count_eq_zero]
            intro hmem
            have h2 := (List.mem_filter.mp hmem).2
            rw [hx] at h2
            have hcc : cx = c := by simpa using h2
            exact hcne hcc.symm
          · rfl
        rw [sum_map_eq_of_single _ cx _ (List.nodup_dedup _) hcx hside]
        simp only [Function.comp, if_pos hq]
        rw [@List.count_filter _ _ _ (fun r => r.content == some cx) x rows
          (show (x.content == some cx) = true by simp [hx])]
      · have hc0 : List.count x rows = 0 := List.count_eq_zero.mpr hxr
        rw [hc0]
        apply List.sum_eq_zero
        intro n hn
        obtain ⟨c, _, hfc⟩ := List.mem_map.mp hn
        rw [← hfc]
        simp only [Function.comp]
        split
        · rw [List.count_eq_zero]
          intro hmem
          exact hxr (List.mem_filter.mp hmem).1
        · rfl
    · have hR : List.count x (rows.filter (fun r =>
          match r.content with
          | some c => decide (q c)
          | none => false)) = 0 := by
        rw [List.count_eq_zero]
        intro hmem
        have h2 := (List.mem_filter.mp hmem).2
        rw [hx] at h2
        exact hq (by simpa using h2)
      rw [hR]
      apply List.sum_eq_zero
      intro n hn
      obtain ⟨c, _, hfc⟩ := List.mem_map.mp hn
      rw [← hfc]
      simp only [Function.comp]
      split
      next hqc =>
        rw [List.count_eq_zero]
        intro hmem
        have h2 := (List.mem_filter.mp hmem).2
        rw [hx] at h2
        have hcc : cx = c := by simpa using h2
        exact hq (hcc ▸ hqc)
      next => rfl

/-- `filterMap` distributes over `flatMap`. -/
theorem filterMap_flatMap {α β γ : Type} (l : List α) (g : α → List β)
    (f : β → Option γ) :
    (l.flatMap g).filterMap f = l.flatMap (fun a => (g a).filterMap f) := by
  induction l with
  | nil => rfl
  | cons a t ih =>
    rw [List.flatMap_cons, List.flatMap_cons, List.filterMap_append, ih]

/-- C5 counterexample: a non-empty status table lacking the `status`
column makes `transform_unified_view` raise (`statuses_subset["status"]`
is a `KeyError`), contradicting the claim that it never fails for tables
lacking a required column. -/
theorem c5_counterexample_missing_status_column_raises :
    isOkB (transformUnifiedView stdSort
      ⟨true, true, true, true, []⟩
      ⟨true, false, true, true, true,
        [⟨some 1, none, some 0, some ("su"), some ("mu"), none, none, some 0, some 0⟩]⟩)
      = false := by decide

/-- C5 amended: only the genuinely *empty* status table is handled
gracefully: `transform_unified_view` succeeds, the aggregate side artifact
carries the full canonical 41-column schema with no rows, and the unified
view proceeds with the message fields only (one synthesized row per
message, counts 0, metadata null, full 58-column schema).  A *non-empty*
table lacking the `status` column raises (`statuses_subset["status"]`),
as does one lacking `message_uuid` (the counts `groupby`).  A missing
`timestamp` column, however, is only touched inside `get_latest_status`
*after* its `df.empty` early return: a non-empty table with both key
columns but no recognized-kind row succeeds (empty aggregate, synthesized
path) even with the `timestamp` column absent. -/
theorem c5_empty_statuses_canonical_schema
    (f : List StatusRow → List StatusRow) (mt : MsgTable) (st : StatusTable) :
    (st.rows = [] →
      isOkB (transformUnifiedView f mt st) = true
      ∧ tvStatusFlatColumns (transformUnifiedView f mt st) = canonicalAggregateColumns
      ∧ tvStatusFlat (transformUnifiedView f mt st) = []
      ∧ tvRows (transformUnifiedView f mt st) =
          mt.rows.map (fun m => { msg := m, cells := synthDerivedCells })
      ∧ tvColumns (transformUnifiedView f mt st) = canonicalUnifiedColumns)
    ∧ (st.rows ≠ [] → st.hasStatus = false →
        isOkB (transformUnifiedView f mt st) = false)
    ∧ (st.rows ≠ [] → st.hasStatus = true → st.hasMessageUuid = false →
        isOkB (transformUnifiedView f mt st) = false)
    ∧ (st.rows ≠ [] → st.hasStatus = true → st.hasMessageUuid = true →
        (∀ r ∈ st.rows, validStatusRow r = false) →
        isOkB (transformUnifiedView f mt st) = true) := by
  refine ⟨?_, ?_, ?_, ?_⟩
  · intro h
    unfold transformUnifiedView aggregateColumns
    simp [h, isOkB, tvRows, tvColumns, tvStatusFlat, tvStatusFlatColumns]
  · intro hne h2
    have hsw : statusWideRows f st = Except.error ("KeyError: status") := by
      unfold statusWideRows
      rw [if_pos (by simp [h2])]
    rw [transformUnifiedView_err f mt st _ hne hsw]
    rfl
  · intro hne h2 h3
    have hsw : statusWideRows f st = Except.error ("KeyError: message_uuid") := by
      unfold statusWideRows
      rw [if_neg (by simp [h2]), if_pos (by simp [h3])]
    rw [transformUnifiedView_err f mt st _ hne hsw]
    rfl
  · intro hne h2 h3 h4
    have hempty : ∀ k : String, pivotStatuses.contains k = true →
        st.rows.filter (fun r => r.status == some k) = [] := by
      intro k hk
      rw [List.filter_eq_nil_iff]
      intro r hr hrs
      have hsk : r.status = some k := eq_of_beq hrs
      have hval : validStatusRow r = true := by
        simp only [validStatusRow, hsk]
        exact hk
      rw [h4 r hr] at hval
      cases hval
    have hlat : ∀ k : String, pivotStatuses.contains k = true →
        getLatestStatus f st k = Except.ok [] := by
      intro k hk
      simp only [getLatestStatus]
      rw [hempty k hk]
      rfl
    have hcr : countsRows st = [] := by
      have hfil : st.rows.filter validStatusRow = [] := by
        rw [List.filter_eq_nil_iff]
        intro r hr hrv
        rw [h4 r hr] at hrv
        cases hrv
      simp only [countsRows]
      rw [hfil]
      rfl
    have hsw : statusWideRows f st = Except.ok [] := by
      unfold statusWideRows
      rw [if_neg (by simp [h2]), if_neg (by simp [h3]),
        hlat ("sent") (by decide), hlat ("delivered") (by decide),
        hlat ("read") (by decide), hlat ("failed") (by decide),
        hlat ("deleted") (by decide)]
      simp [hcr]
    rw [transformUnifiedView_agg_empty f mt st hne hsw]
    rfl

/-- Witness for C5 at concrete inputs: an empty status table (all columns
missing) yields the canonical aggregate schema, and a non-empty table
lacking only the `timestamp` column whose single row has an unrecognized
status still succeeds. -/
theorem c5_empty_statuses_canonical_schema_witness :
    tvStatusFlatColumns (transformUnifiedView stdSort
        ⟨true, true, true, true, [⟨some 1, some ("a"), none, none, some 0⟩]⟩
        ⟨false, false, false, false, false, []⟩) = canonicalAggregateColumns
    ∧ isOkB (transformUnifiedView stdSort
        ⟨true, true, true, true, [⟨some 1, some ("a"), none, none, some 0⟩]⟩
        ⟨true, true, false, true, true,
          [⟨some 1, some ("bogus"), none, some ("su"), some ("mu"), none, none,
            some 0, some 0⟩]⟩) = true :=
  ⟨((c5_empty_statuses_canonical_schema stdSort
      ⟨true, true, true, true, [⟨some 1, some ("a"), none, none, some 0⟩]⟩
      ⟨false, false, false, false, false, []⟩).1 rfl).2.1,
   (c5_empty_statuses_canonical_schema stdSort
      ⟨true, true, true, true, [⟨some 1, some ("a"), none, none, some 0⟩]⟩
      ⟨true, true, false, true, true,
        [⟨some 1, some ("bogus"), none, some ("su"), some ("mu"), none, none,
          some 0, some 0⟩]⟩).2.2.2
      (by decide) rfl rfl (by decide)⟩

/-- C3 counterexample: a non-empty status table whose only row has an
unrecognized status value.  Its `message_uuid` "x" is a distinct uuid
present in the input, yet the aggregate has *zero* rows, not one: rows
are created only for uuids with at least one recognized-kind event. -/
theorem c3_counterexample_unrecognized_uuid_dropped :
    statusWideRows stdSort
      ⟨true, true, true, true, true,
        [⟨some 1, some ("bogus"), some 0, some ("su"), some ("x"), none, none, some 0, some 0⟩]⟩
      = Except.ok []
    ∧ ("x") ∈ ([⟨some 1, some ("bogus"), some 0, some ("su"), some ("x"), none, none,
          some 0, some 0⟩] : List StatusRow).filterMap (fun r => r.message_uuid) := by
  refine ⟨by decide, by decide⟩

/-- C3 (amended): the aggregate has exactly one row per distinct non-null
`message_uuid` that carries at least one event of a recognized kind
(pairwise-distinct keys; membership characterized below); its counts are
exactly the per-kind event counts (natural numbers, hence >= 0, one count
column per kind in the schema); and a message row joining a uuid present
in the aggregate receives `sent` count equal to its number of sent
events. -/
theorem c3_aggregate_one_row_per_valid_uuid_counts
    (f : List StatusRow → List StatusRow) (st : StatusTable)
    (sw : List StatusWideRow) (hsw : statusWideRows f st = Except.ok sw) :
    (sw.map (fun s => s.counts.message_uuid)).Nodup
    ∧ (∀ u : String, u ∈ sw.map (fun s => s.counts.message_uuid) ↔
        ∃ r ∈ st.rows, validStatusRow r = true ∧ r.message_uuid = some u)
    ∧ sw.map (fun s => s.counts) = countsRows st
    ∧ (∀ k ∈ pivotStatuses, k ∈ aggregateColumns st)
    ∧ (∀ (mt : MsgTable), st.rows ≠ [] →
        ∀ m ∈ mt.rows, ∀ u : String, msgJoinUuid mt m = some u →
          u ∈ sw.map (fun s => s.counts.message_uuid) →
          ∃ r ∈ tvRows (transformUnifiedView f mt st),
            r.msg = m ∧ r.cells.sent.count =
              some (countKind (st.rows.filter validStatusRow) u ("sent"))) := by
  have hkeys := statusWideRows_keys f st sw hsw
  have hnodup := statusWideRows_keys_nodup f st sw hsw
  have hcounts := statusWideRows_counts f st sw hsw
  refine ⟨hnodup, ?_, hcounts, ?_, ?_⟩
  · intro u
    rw [hkeys]
    unfold uuidKeys
    rw [List.mem_dedup, List.mem_filterMap]
    constructor
    · rintro ⟨r, hr, hru⟩
      rw [List.mem_filter] at hr
      exact ⟨r, hr.1, hr.2, hru⟩
    · rintro ⟨r, hr, hrv, hru⟩
      exact ⟨r, List.mem_filter.mpr ⟨hr, hrv⟩, hru⟩
  · intro k hk
    unfold aggregateColumns canonicalAggregateColumns canonicalDerivedColumns
      joinedDerivedColumns
    split
    · exact List.mem_cons_of_mem _ (List.mem_append_left _ hk)
    · exact List.mem_cons_of_mem _ (List.mem_append_left _ hk)
  · intro mt hne m hm u hmu hu
    obtain ⟨s, hs, hkey⟩ := List.mem_map.mp hu
    have hswne : sw ≠ [] := by
      intro h
      subst h
      exact absurd hs (List.not_mem_nil s)
    rw [transformUnifiedView_join f mt st sw hne hsw hswne]
    simp only [tvRows]
    have hpred : (msgJoinUuid mt m == some s.counts.message_uuid) = true := by
      rw [hmu, hkey]
      simp
    have hmemf : s ∈ sw.filter
        (fun x => msgJoinUuid mt m == some x.counts.message_uuid) :=
      List.mem_filter.mpr ⟨hs, hpred⟩
    refine ⟨{ msg := m, cells := matchedDerivedCells s }, ?_, rfl, ?_⟩
    · rw [List.mem_flatMap]
      refine ⟨m, hm, ?_⟩
      unfold joinRow
      have hfe : (sw.filter
          (fun x => msgJoinUuid mt m == some x.counts.message_uuid)).isEmpty ≠ true := by
        intro hie
        rw [List.isEmpty_iff] at hie
        rw [hie] at hmemf
        exact absurd hmemf (List.not_mem_nil s)
      rw [if_neg hfe]
      exact List.mem_map_of_mem _ hmemf
    · show some s.counts.sent = _
      have hcmem : s.counts ∈ countsRows st := by
        rw [← hcounts]
        exact List.mem_map_of_mem _ hs
      have hcmem2 : s.counts ∈ (uuidKeys (st.rows.filter validStatusRow)).map
          (fun v => ({ message_uuid := v
                       sent := countKind (st.rows.filter validStatusRow) v ("sent")
                       delivered := countKind (st.rows.filter validStatusRow) v ("delivered")
                       read := countKind (st.rows.filter validStatusRow) v ("read")
                       failed := countKind (st.rows.filter validStatusRow) v ("failed")
                       deleted := countKind (st.rows.filter validStatusRow) v ("deleted") }
                     : CountsRow)) := by
        simpa [countsRows] using hcmem
      obtain ⟨v, _, hv⟩ := List.mem_map.mp hcmem2
      have hvu : v = u := by
        rw [← hkey, ← hv]
      rw [← hv, hvu]

/-- Witness for C3: the amended aggregate facts applied at a concrete
one-event status table. -/
theorem c3_aggregate_one_row_per_valid_uuid_counts_witness :
    (([⟨⟨"a", 1, 0, 0, 0, 0⟩,
        some ⟨"a", some 5, some ("su"), some 10⟩, none, none, none, none⟩]
      : List StatusWideRow).map (fun s => s.counts.message_uuid)).Nodup :=
  (c3_aggregate_one_row_per_valid_uuid_counts stdSort
    ⟨true, true, true, true, true,
      [⟨some 10, some ("sent"), some 5, some ("su"), some ("a"), none, none, some 5, some 5⟩]⟩
    [⟨⟨"a", 1, 0, 0, 0, 0⟩,
        some ⟨"a", some 5, some ("su"), some 10⟩, none, none, none, none⟩]
    (by decide)).1

/-! ## Latest-per-kind lemmas (claim C4) -/

/-- The input-order group of kind-`k` events for message `u`: the rows
`get_latest_status` filters to kind `k`, restricted to one uuid. -/
def kindGroup (t : StatusTable) (k u : String) : List StatusRow :=
  (t.rows.filter (fun r => r.status == some k)).filter
    (fun r => r.message_uuid == some u)

/-- The winner the spec describes (refinement definition following the
spec's words, to be compared with the code's behaviour): among the
group's rows whose timestamp is maximal, the one that comes last in the
original input order. -/
def specStableWinner (g : List StatusRow) : Option StatusRow :=
  (g.filter (fun r => g.all (fun r2 => tsLeB r2.timestamp r.timestamp))).getLast?

/-- The claim as stated: for any valid embedding of the code's sort, the
per-kind latest projection always equals the spec's stable winner. -/
def latestMatchesSpecStable : Prop :=
  ∀ f : List StatusRow → List StatusRow, IsTimestampSort f →
  ∀ (t : StatusTable) (k : String) (L : List LatestRow),
    getLatestStatus f t k = Except.ok L →
    ∀ row ∈ L, ∀ w : StatusRow,
      specStableWinner (kindGroup t k row.message_uuid) = some w →
      row.timestamp = w.timestamp ∧ row.status_uuid = w.uuid
        ∧ row.status_id = w.id

theorem tsLeB_refl (a : Option Int) : tsLeB a a = true := by
  cases a <;> simp [tsLeB]

/-- Membership form of `getLast?`. -/
theorem mem_of_getLast?H {α : Type} {l : List α} {a : α}
    (h : l.getLast? = some a) : a ∈ l := by
  obtain ⟨hne, heq⟩ := List.mem_getLast?_eq_getLast (show a ∈ l.getLast? by rw [h]; rfl)
  rw [heq]
  exact List.getLast_mem hne

/-- `GroupBy.last` on a column that is non-null at the group's last row
returns exactly that row's value. -/
theorem lastNonNull_eq_of_getLast {α : Type} (fld : StatusRow → Option α) :
    ∀ (S : List StatusRow) (w : StatusRow), S.getLast? = some w →
      fld w ≠ none → lastNonNull fld S = fld w := by
  intro S
  induction S with
  | nil =>
    intro w hw
    exact absurd hw (by simp)
  | cons a S2 ih =>
    intro w hw hnn
    cases hS : S2 with
    | nil =>
      subst hS
      have haw : a = w := by simpa using hw
      subst haw
      unfold lastNonNull
      rw [List.filterMap_cons]
      cases hf : fld a with
      | none => exact absurd hf hnn
      | some b => simp
    | cons c cs =>
      subst hS
      rw [List.getLast?_cons_cons] at hw
      have hrec := ih w hw hnn
      unfold lastNonNull at hrec ⊢
      rw [List.filterMap_cons]
      cases hf : fld a with
      | none => exact hrec
      | some b =>
        cases hfm : List.filterMap fld (c :: cs) with
        | nil =>
          rw [hfm] at hrec
          exact absurd hrec.symm hnn
        | cons d ds =>
          rw [hfm] at hrec
          show (b :: d :: ds).getLast? = fld w
          rw [List.getLast?_cons_cons]
          exact hrec

/-- In a timestamp-sorted list, the last element's timestamp bounds every
element's timestamp from above. -/
theorem pairwise_getLast_max :
    ∀ S : List StatusRow, S.Pairwise tsRel → ∀ w : StatusRow,
      S.getLast? = some w → ∀ r ∈ S, tsLeB r.timestamp w.timestamp = true := by
  intro S
  induction S with
  | nil =>
    intro _ w hw
    exact absurd hw (by simp)
  | cons a S2 ih =>
    intro hp w hw r hr
    cases hS : S2 with
    | nil =>
      subst hS
      have haw : a = w := by simpa using hw
      have hra : r = a := by simpa using hr
      rw [hra, haw]
      exact tsLeB_refl _
    | cons c cs =>
      subst hS
      rw [List.getLast?_cons_cons] at hw
      rw [List.pairwise_cons] at hp
      rcases List.mem_cons.mp hr with hra | hr2
      · have hwmem : w ∈ c :: cs := mem_of_getLast?H hw
        rw [hra]
        exact hp.1 w hwmem
      · exact ih hp.2 w hw r hr2

/-- Shape of a successful `get_latest_status`: empty, or one projected
row per distinct uuid of the sorted kind-filtered frame. -/
theorem getLatestStatus_ok_shape (f : List StatusRow → List StatusRow)
    (t : StatusTable) (k : String) (L : List LatestRow)
    (h : getLatestStatus f t k = Except.ok L) :
    L = [] ∨
    L = (uuidKeys (f (t.rows.filter (fun r => r.status == some k)))).map
      (fun u =>
        { message_uuid := u
          timestamp := lastNonNull (fun r => r.timestamp)
            ((f (t.rows.filter (fun r => r.status == some k))).filter
              (fun r => r.message_uuid == some u))
          status_uuid := lastNonNull (fun r => r.uuid)
            ((f (t.rows.filter (fun r => r.status == some k))).filter
              (fun r => r.message_uuid == some u))
          status_id := lastNonNull (fun r => r.id)
            ((f (t.rows.filter (fun r => r.status == some k))).filter
              (fun r => r.message_uuid == some u)) }) := by
  simp only [getLatestStatus] at h
  split at h
  · left
    injection h with h2
    exact h2.symm
  · split at h
    · exact absurd h (by simp)
    · split at h
      · exact absurd h (by simp)
      · right
        injection h with h2
        exact h2.symm

/-- C4 counterexample: the stable tie-break is not guaranteed by the
code.  `sort_values` uses the pandas default quicksort, whose tie order
is unspecified; modelling it as any timestamp-ordering permutation, the
tie-reversing sort `revSort` is valid yet picks the *first*-in-input-order
of two exactly-tied `sent` events (status_uuid "s1"/id 1) where the
spec's stable rule demands the last one ("s2"/id 2). -/
theorem c4_counterexample_tie_break_not_stable :
    ¬ latestMatchesSpecStable := by
  intro h
  have hc := h revSort revSort_isTimestampSort
    ⟨true, true, true, true, true,
      [⟨some 1, some ("sent"), some 5, some ("s1"), some ("u"), none, none, some 5, some 5⟩,
       ⟨some 2, some ("sent"), some 5, some ("s2"), some ("u"), none, none, some 5, some 5⟩]⟩
    ("sent")
    [⟨("u"), some 5, some ("s1"), some 1⟩] (by decide)
    ⟨("u"), some 5, some ("s1"), some 1⟩ (by decide)
    ⟨some 2, some ("sent"), some 5, some ("s2"), some ("u"), none, none, some 5, some 5⟩
    (by decide)
  exact absurd hc.2.1 (by decide)

/-- C4 (amended): for every valid embedding of the code's sort, the
per-kind projection for a message is taken from a row with the maximal
timestamp of that message's kind-`k` events (all fields non-null
assumed, matching parsed event rows); when the maximal timestamp is
*strictly* greater than every other event's, the projected
timestamp/uuid/id are exactly that event's, independent of input order.
Among exactly-equal maximal timestamps, which tied event wins depends on
the unspecified tie order of the unstable sort (see the
counterexample). -/
theorem c4_latest_has_max_timestamp_and_unique_argmax
    (f : List StatusRow → List StatusRow) (hf : IsTimestampSort f)
    (t : StatusTable) (k : String) (L : List LatestRow)
    (hok : getLatestStatus f t k = Except.ok L)
    (row : LatestRow) (hrow : row ∈ L)
    (hnn : ∀ r ∈ kindGroup t k row.message_uuid,
      r.timestamp ≠ none ∧ r.uuid ≠ none ∧ r.id ≠ none) :
    (∀ r ∈ kindGroup t k row.message_uuid,
      tsLeB r.timestamp row.timestamp = true)
    ∧ (∀ w ∈ kindGroup t k row.message_uuid,
        (∀ r ∈ kindGroup t k row.message_uuid, r ≠ w →
          tsLeB w.timestamp r.timestamp = false) →
        row.timestamp = w.timestamp ∧ row.status_uuid = w.uuid
          ∧ row.status_id = w.id) := by
  rcases getLatestStatus_ok_shape f t k L hok with hL | hL
  · rw [hL] at hrow
    exact absurd hrow (List.not_mem_nil row)
  · subst hL
    rw [List.mem_map] at hrow
    obtain ⟨u, hu, hrowu⟩ := hrow
    have hmu : row.message_uuid = u := by rw [← hrowu]
    have hgperm : ((f (t.rows.filter (fun r => r.status == some k))).filter
        (fun r => r.message_uuid == some u)).Perm (kindGroup t k u) := by
      unfold kindGroup
      exact List.Perm.filter _
        ((hf (t.rows.filter (fun r => r.status == some k))).1)
    have hpair : ((f (t.rows.filter (fun r => r.status == some k))).filter
        (fun r => r.message_uuid == some u)).Pairwise tsRel :=
      List.Pairwise.filter _
        ((hf (t.rows.filter (fun r => r.status == some k))).2)
    have hSne : (f (t.rows.filter (fun r => r.status == some k))).filter
        (fun r => r.message_uuid == some u) ≠ [] := by
      unfold uuidKeys at hu
      rw [List.mem_dedup, List.mem_filterMap] at hu
      obtain ⟨r, hr, hru⟩ := hu
      intro h0
      have hrS : r ∈ (f (t.rows.filter (fun x => x.status == some k))).filter
          (fun x => x.message_uuid == some u) := by
        rw [List.mem_filter]
        exact ⟨hr, by rw [hru]; simp⟩
      rw [h0] at hrS
      exact absurd hrS (List.not_mem_nil r)
    obtain ⟨wl, hwl⟩ : ∃ wl,
        ((f (t.rows.filter (fun r => r.status == some k))).filter
          (fun r => r.message_uuid == some u)).getLast? = some wl := by
      cases hgl : ((f (t.rows.filter (fun r => r.status == some k))).filter
          (fun r => r.message_uuid == some u)).getLast? with
      | none => exact absurd (List.getLast?_eq_none.mp hgl) hSne
      | some x => exact ⟨x, rfl⟩
    have hwlS := mem_of_getLast?H hwl
    have hwlG : wl ∈ kindGroup t k u := (hgperm.mem_iff).mp hwlS
    rw [hmu] at hnn
    have hwlnn := hnn wl hwlG
    have hts : row.timestamp = wl.timestamp := by
      rw [← hrowu]
      show lastNonNull (fun r => r.timestamp) _ = wl.timestamp
      rw [lastNonNull_eq_of_getLast _ _ wl hwl hwlnn.1]
    have huu : row.status_uuid = wl.uuid := by
      rw [← hrowu]
      show lastNonNull (fun r => r.uuid) _ = wl.uuid
      rw [lastNonNull_eq_of_getLast _ _ wl hwl hwlnn.2.1]
    have hid : row.status_id = wl.id := by
      rw [← hrowu]
      show lastNonNull (fun r => r.id) _ = wl.id
      rw [lastNonNull_eq_of_getLast _ _ wl hwl hwlnn.2.2]
    constructor
    · intro r hr
      rw [hmu] at hr
      have hrS := (hgperm.mem_iff).mpr hr
      rw [hts]
      exact pairwise_getLast_max _ hpair wl hwl r hrS
    · intro w hw huniq
      rw [hmu] at hw huniq
      have hwS := (hgperm.mem_iff).mpr hw
      have hmax : tsLeB w.timestamp wl.timestamp = true :=
        pairwise_getLast_max _ hpair wl hwl w hwS
      rcases eq_or_ne wl w with hew | hne
      · rw [hts, huu, hid, hew]
        exact ⟨rfl, rfl, rfl⟩
      · exact absurd hmax (by rw [huniq wl hwlG hne]; simp)

/-- Witness for C4: two sent events with distinct timestamps 0 < 5; the
projection for uuid "u" carries the chronologically last event's
timestamp, bounding the earlier event's from above. -/
theorem c4_latest_has_max_timestamp_witness :
    tsLeB (some 0)
      ((⟨("u"), some 5, some ("s2"), some 2⟩ : LatestRow).timestamp) = true :=
  (c4_latest_has_max_timestamp_and_unique_argmax stdSort stdSort_isTimestampSort
    ⟨true, true, true, true, true,
      [⟨some 1, some ("sent"), some 0, some ("s1"), some ("u"), none, none, some 0, some 0⟩,
       ⟨some 2, some ("sent"), some 5, some ("s2"), some ("u"), none, none, some 5, some 5⟩]⟩
    ("sent")
    [⟨("u"), some 5, some ("s2"), some 2⟩] (by decide)
    ⟨("u"), some 5, some ("s2"), some 2⟩ (by decide) (by decide)).1
    ⟨some 1, some ("sent"), some 0, some ("s1"), some ("u"), none, none, some 0, some 0⟩
    (by decide)

/-- C6 counterexample: two rows share the exact content " hi "
(non-blank after trimming), a group of size 2, yet only ONE
DuplicateRecord is emitted: the second row's direction "sideways" fails
the pydantic direction validator and the record is dropped.  The emitted
record also carries the *stripped* content "hi", not the row's own
" hi ". -/
theorem c6_counterexample_invalid_direction_dropped :
    detectDuplicates
      ⟨true, true, true, true,
        [⟨some 1, some ("u1"), some (" hi "), some ("inbound"), some 0⟩,
         ⟨some 2, some ("u2"), some (" hi "), some ("sideways"), some 0⟩]⟩
      = Except.ok [⟨1, some ("hi"), ("0"), ("u1"), ("inbound"), none⟩]
    ∧ ([⟨some 1, some ("u1"), some (" hi "), some ("inbound"), some 0⟩,
        ⟨some 2, some ("u2"), some (" hi "), some ("sideways"), some 0⟩]
        : List MsgRow).countP (fun x => x.content == some (" hi ")) = 2 := by
  refine ⟨by decide, by decide⟩

/-- C6 (amended): for every messages table with a content column, the
emitted records are exactly (up to the group-iteration order) one record
per message row whose content is non-null, truthy and non-blank after
stripping and is shared with at least one other row — except that rows
whose record fails validation (direction not inbound/outbound after the
null default "unknown", or a blank-stripped uuid) are dropped; each
record carries the row's own id, uuid, stripped content, stringified
inserted_at and direction. -/
theorem c6_duplicates_per_member_with_validation (mt : MsgTable)
    (hc : mt.hasContent = true) (l : List DuplicateRecord)
    (h : detectDuplicates mt = Except.ok l) :
    l.Perm ((mt.rows.filter (qualifiesDuplicate mt)).filterMap
      mkDuplicateRecord) := by
  by_cases hr : mt.rows.isEmpty = true
  · have hr2 : mt.rows = [] := List.isEmpty_iff.mp hr
    unfold detectDuplicates at h
    rw [if_pos hr] at h
    injection h with h2
    rw [← h2, hr2]
    exact List.Perm.refl _
  · unfold detectDuplicates at h
    rw [if_neg hr, if_neg (by simp [hc])] at h
    injection h with h2
    subst h2
    have hcomm : (fun c =>
        let group := mt.rows.filter (fun r => r.content == some c)
        if 1 < group.length ∧ c ≠ "" ∧ pyStrip c ≠ "" then
          group.filterMap mkDuplicateRecord
        else [])
      = (fun c =>
        ((if 1 < (mt.rows.filter (fun r => r.content == some c)).length
              ∧ c ≠ "" ∧ pyStrip c ≠ "" then
            mt.rows.filter (fun r => r.content == some c)
          else []).filterMap mkDuplicateRecord)) := by
      funext c
      by_cases hcnd : 1 < (mt.rows.filter (fun r => r.content == some c)).length
          ∧ c ≠ "" ∧ pyStrip c ≠ ""
      · simp only [if_pos hcnd]
      · simp only [if_neg hcnd, List.filterMap_nil]
    rw [hcomm, ← filterMap_flatMap]
    apply List.Perm.filterMap
    have hperm := flatMap_groups_perm mt.rows
      (fun c => 1 < (mt.rows.filter (fun r => r.content == some c)).length
        ∧ c ≠ "" ∧ pyStrip c ≠ "")
    have hpred : (fun (r : MsgRow) =>
        match r.content with
        | some c => decide (1 < (mt.rows.filter
            (fun x => x.content == some c)).length ∧ c ≠ "" ∧ pyStrip c ≠ "")
        | none => false) = qualifiesDuplicate mt := by
      funext r
      cases hrc : r.content with
      | none => simp [qualifiesDuplicate, hrc]
      | some c => simp [qualifiesDuplicate, hrc, List.countP_eq_length_filter]
    rw [hpred] at hperm
    exact hperm

/-- Witness for C6: two identical-content inbound rows yield exactly the
two per-member records (here in the same order). -/
theorem c6_duplicates_per_member_witness :
    ([⟨1, some ("dup"), ("0"), ("u1"), ("inbound"), none⟩,
      ⟨2, some ("dup"), ("0"), ("u2"), ("inbound"), none⟩]
      : List DuplicateRecord).Perm
    ((([⟨some 1, some ("u1"), some ("dup"), some ("inbound"), some 0⟩,
        ⟨some 2, some ("u2"), some ("dup"), some ("inbound"), some 0⟩]
      : List MsgRow).filter
        (qualifiesDuplicate
          ⟨true, true, true, true,
            [⟨some 1, some ("u1"), some ("dup"), some ("inbound"), some 0⟩,
             ⟨some 2, some ("u2"), some ("dup"), some ("inbound"), some 0⟩]⟩)).filterMap
      mkDuplicateRecord) :=
  c6_duplicates_per_member_with_validation
    ⟨true, true, true, true,
      [⟨some 1, some ("u1"), some ("dup"), some ("inbound"), some 0⟩,
       ⟨some 2, some ("u2"), some ("dup"), some ("inbound"), some 0⟩]⟩
    rfl
    [⟨1, some ("dup"), ("0"), ("u1"), ("inbound"), none⟩,
     ⟨2, some ("dup"), ("0"), ("u2"), ("inbound"), none⟩]
    (by decide)

/-- Witness for C9: the frame property applied to a concrete transformer
state (empty tables), whose transition succeeds. -/
theorem c9_transform_unified_view_frame_witness :
    tvsMessages (transformUnifiedViewS stdSort
        (mkTransformer ⟨true, true, true, true, []⟩ ⟨true, true, true, true, true, []⟩)) =
      some ⟨true, true, true, true, []⟩ :=
  (c9_transform_unified_view_frame stdSort
    (mkTransformer ⟨true, true, true, true, []⟩ ⟨true, true, true, true, true, []⟩)
    (by decide)).1

end WhatsappEtl
